import Mathlib

/-!
Verification of the Bank Management API ledger core (src/main.py, src/schemas.py).

Shallow embedding.  MongoDB documents become Lean structures; the mutable
store (the `account` and `transaction` collections) becomes an explicit
`Bank` state threaded through each endpoint.  Monetary amounts, Python
floats in the source, are modelled as exact rationals.  Each endpoint
returns the post-call store state together with an `Except` result: the
state is returned even on failure, because in the source a store write
performed before an exception is raised persists in the database.

Store writes may fail in the real system (pymongo raises, the generic
`except Exception` block in each endpoint maps the error to HTTP 500).
Each operation therefore takes a fault oracle `failAt : Option Nat`:
`some k` makes the k-th store write of that call raise without effect,
`none` is the fault-free run.  The plain endpoint is the `none` instance.
-/

namespace BankApi

/-- Currency codes, the closed `Literal` set of `schemas.Account.currency`. -/
inductive Currency where
  | USD | EUR | GBP | INR | JPY | AUD
deriving DecidableEq, Repr

/-- The `schemas.Account.account_type` field. -/
inductive AccountType where
  | checking | savings
deriving DecidableEq, Repr

/-- The `schemas.Transaction.tx_type` field. -/
inductive TxType where
  | deposit | withdraw | transfer
deriving DecidableEq, Repr

/-- An `account` collection document (schemas.py, class Account). -/
structure Account where
  customer_id : String
  account_type : AccountType
  balance : ℚ
  currency : Currency
  nickname : Option String
deriving DecidableEq, Repr

/-- A `transaction` collection document (schemas.py, class Transaction).
The timestamp is opaque here; main.py never sets it. -/
structure Transaction where
  account_id : String
  tx_type : TxType
  amount : ℚ
  currency : Currency
  note : Option String
  to_account_id : Option String
  occurred_at : Option Nat
deriving DecidableEq, Repr

/-- An `HTTPException(status_code, detail)` as raised by main.py. -/
structure HErr where
  status : Nat
  detail : String
deriving DecidableEq, Repr

/-- The document store: the `account` collection keyed by `_id` string,
and the append-only `transaction` collection in insertion order. -/
structure Bank where
  accounts : List (String × Account)
  transactions : List Transaction
deriving DecidableEq, Repr

/-- Model of `db[account].find_one(\x7b_id: id\x7d)`: first document with the given id. -/
def findAcc : List (String × Account) → String → Option Account
  | [], _ => none
  | (k, a) :: t, id => if k = id then some a else findAcc t id

/-- Model of `db[account].update_one(\x7b_id: id\x7d, \x7b$set: \x7bbalance: b\x7d\x7d)`:
set the balance of the document with the given id (ids are unique in the
store; setting every match is equivalent). -/
def setBalance : List (String × Account) → String → ℚ → List (String × Account)
  | [], _, _ => []
  | (k, a) :: t, id, b =>
    (if k = id then (k, { a with balance := b }) else (k, a)) :: setBalance t id b

/-- Store state after `update_one` on the account collection. -/
def Bank.setBal (s : Bank) (id : String) (b : ℚ) : Bank :=
  { s with accounts := setBalance s.accounts id b }

/-- Model of `create_document("transaction", tx)`: append to the ledger. -/
def Bank.appendTx (s : Bank) (tx : Transaction) : Bank :=
  { s with transactions := s.transactions ++ [tx] }

/-- Detail string standing for the message of a rejected store write,
surfaced as HTTP 500 by the generic `except Exception` block. -/
def storeFaultMsg : String := "store write rejected"

/-- Detail string standing for `str(e)` of the pydantic `ValidationError`
raised by `Transaction(...)` when `amount <= 0` (the `gt=0` bound on
`Transaction.amount` in schemas.py), surfaced as HTTP 500. -/
def validationMsg : String := "Transaction amount must be greater than 0"

/-- Constructing `Transaction(...)`: pydantic validates `amount` with
`gt=0` and raises otherwise; the endpoint maps that to HTTP 500. -/
def mkTransaction (account_id : String) (tx_type : TxType) (amount : ℚ)
    (currency : Currency) (note : Option String)
    (to_account_id : Option String) : Except HErr Transaction :=
  if 0 < amount then
    Except.ok ⟨account_id, tx_type, amount, currency, note, to_account_id, none⟩
  else
    Except.error ⟨500, validationMsg⟩

/-- Endpoint `POST /api/transactions/deposit` (main.py, `deposit`), with the store
fault oracle.  Store writes of this call: 0 = balance update, 1 = ledger
insert.  Returns the store state reached and the HTTP result. -/
def depositF (failAt : Option Nat) (s : Bank) (account_id : String)
    (amount : ℚ) (note : Option String) : Bank × Except HErr ℚ :=
  match findAcc s.accounts account_id with
  | none => (s, Except.error ⟨404, "Account not found"⟩)
  | some acc =>
    let new_balance := acc.balance + amount
    if failAt = some 0 then (s, Except.error ⟨500, storeFaultMsg⟩) else
    let s1 := s.setBal account_id new_balance
    match mkTransaction account_id TxType.deposit amount acc.currency note none with
    | Except.error e => (s1, Except.error e)
    | Except.ok tx =>
      if failAt = some 1 then (s1, Except.error ⟨500, storeFaultMsg⟩) else
      (s1.appendTx tx, Except.ok new_balance)

/-- The fault-free deposit endpoint. -/
def deposit (s : Bank) (account_id : String) (amount : ℚ)
    (note : Option String) : Bank × Except HErr ℚ :=
  depositF none s account_id amount note

/-- The part of `withdraw` after the `find_one` read, acting on the
snapshot `acc` that the read returned (main.py lines 164-177).  The
balance check and the new balance are both computed from the snapshot;
the write is an unconditional `$set`.  Store writes: 0 = balance update,
1 = ledger insert. -/
def withdrawCommitF (failAt : Option Nat) (s : Bank) (acc : Account)
    (account_id : String) (amount : ℚ) (note : Option String) :
    Bank × Except HErr ℚ :=
  let current := acc.balance
  if amount > current then (s, Except.error ⟨400, "Insufficient funds"⟩)
  else
    let new_balance := current - amount
    if failAt = some 0 then (s, Except.error ⟨500, storeFaultMsg⟩) else
    let s1 := s.setBal account_id new_balance
    match mkTransaction account_id TxType.withdraw amount acc.currency note none with
    | Except.error e => (s1, Except.error e)
    | Except.ok tx =>
      if failAt = some 1 then (s1, Except.error ⟨500, storeFaultMsg⟩) else
      (s1.appendTx tx, Except.ok new_balance)

/-- Endpoint `POST /api/transactions/withdraw` (main.py, `withdraw`): a `find_one`
read followed by `withdrawCommitF` on the snapshot it returned. -/
def withdrawF (failAt : Option Nat) (s : Bank) (account_id : String)
    (amount : ℚ) (note : Option String) : Bank × Except HErr ℚ :=
  match findAcc s.accounts account_id with
  | none => (s, Except.error ⟨404, "Account not found"⟩)
  | some acc => withdrawCommitF failAt s acc account_id amount note

/-- The fault-free withdraw endpoint. -/
def withdraw (s : Bank) (account_id : String) (amount : ℚ)
    (note : Option String) : Bank × Except HErr ℚ :=
  withdrawF none s account_id amount note

/-- The fault-free commit phase of withdraw (for interleaved runs). -/
def withdrawCommit (s : Bank) (acc : Account) (account_id : String)
    (amount : ℚ) (note : Option String) : Bank × Except HErr ℚ :=
  withdrawCommitF none s acc account_id amount note

/-- Endpoint `POST /api/transactions/transfer` (main.py, `transfer`), with the
store fault oracle.  Both accounts are read first; the credit is computed
from the `to_acc` snapshot taken before the debit was written.  Store
writes: 0 = debit update, 1 = credit update, 2 = source ledger insert,
3 = destination ledger insert. -/
def transferF (failAt : Option Nat) (s : Bank) (from_id to_id : String)
    (amount : ℚ) (note : Option String) : Bank × Except HErr Unit :=
  match findAcc s.accounts from_id, findAcc s.accounts to_id with
  | some from_acc, some to_acc =>
    if from_acc.currency ≠ to_acc.currency then
      (s, Except.error ⟨400, "Currency mismatch"⟩)
    else
      let current := from_acc.balance
      if amount > current then (s, Except.error ⟨400, "Insufficient funds"⟩)
      else
        if failAt = some 0 then (s, Except.error ⟨500, storeFaultMsg⟩) else
        let s1 := s.setBal from_id (current - amount)
        if failAt = some 1 then (s1, Except.error ⟨500, storeFaultMsg⟩) else
        let s2 := s1.setBal to_id (to_acc.balance + amount)
        match mkTransaction from_id TxType.transfer amount from_acc.currency
            note (some to_id) with
        | Except.error e => (s2, Except.error e)
        | Except.ok tx_out =>
          if failAt = some 2 then (s2, Except.error ⟨500, storeFaultMsg⟩) else
          let s3 := s2.appendTx tx_out
          match mkTransaction to_id TxType.deposit amount to_acc.currency
              (some ("Transfer from " ++ from_id)) none with
          | Except.error e => (s3, Except.error e)
          | Except.ok tx_in =>
            if failAt = some 3 then (s3, Except.error ⟨500, storeFaultMsg⟩) else
            (s3.appendTx tx_in, Except.ok ())
  | _, _ => (s, Except.error ⟨404, "Source or destination account not found"⟩)

/-- The fault-free transfer endpoint. -/
def transfer (s : Bank) (from_id to_id : String) (amount : ℚ)
    (note : Option String) : Bank × Except HErr Unit :=
  transferF none s from_id to_id amount note

end BankApi


namespace BankApi

/-- Lookup after setting the balance of a different id is unchanged. -/
theorem findAcc_setBalance_ne (accs : List (String × Account)) (id id' : String)
    (b : ℚ) (h : id ≠ id') :
    findAcc (setBalance accs id' b) id = findAcc accs id := by
  induction accs with
  | nil => rfl
  | cons p t ih =>
    obtain ⟨k, a⟩ := p
    rw [setBalance]
    by_cases hk : k = id'
    · have hkid : ¬k = id := fun hc => h (hc ▸ hk)
      rw [if_pos hk, findAcc, if_neg hkid, findAcc, if_neg hkid]
      exact ih
    · rw [if_neg hk, findAcc, findAcc]
      by_cases hq : k = id
      · rw [if_pos hq, if_pos hq]
      · rw [if_neg hq, if_neg hq]
        exact ih

/-- Lookup after setting the balance of the same id returns the updated
document, provided the id was present. -/
theorem findAcc_setBalance_eq (accs : List (String × Account)) (id : String)
    (a : Account) (b : ℚ) (h : findAcc accs id = some a) :
    findAcc (setBalance accs id b) id = some { a with balance := b } := by
  induction accs with
  | nil => simp [findAcc] at h
  | cons p t ih =>
    obtain ⟨k, a0⟩ := p
    rw [findAcc] at h
    rw [setBalance]
    by_cases hk : k = id
    · rw [if_pos hk] at h
      injection h with h
      subst h
      rw [if_pos hk, findAcc, if_pos hk]
    · rw [if_neg hk] at h
      rw [if_neg hk, findAcc, if_neg hk]
      exact ih h

/-- A successful lookup is a store entry. -/
theorem findAcc_mem (accs : List (String × Account)) (id : String)
    (a : Account) (h : findAcc accs id = some a) : (id, a) ∈ accs := by
  induction accs with
  | nil => simp [findAcc] at h
  | cons p t ih =>
    obtain ⟨k, a0⟩ := p
    by_cases hk : k = id
    · rw [findAcc, if_pos hk] at h
      injection h with h
      subst hk; subst h
      exact List.mem_cons_self _ _
    · rw [findAcc, if_neg hk] at h
      exact List.mem_cons_of_mem _ (ih h)

/-- Every balance in the store is non-negative (the `ge=0` bound on
`schemas.Account.balance`, and the invariant of spec section 3). -/
def NonNeg (s : Bank) : Prop := ∀ p ∈ s.accounts, 0 ≤ p.2.balance

/-- Setting a balance to a non-negative value preserves `NonNeg`. -/
theorem nonNeg_setBal (s : Bank) (id : String) (b : ℚ) (hb : 0 ≤ b)
    (hs : NonNeg s) : NonNeg (s.setBal id b) := by
  intro p hp
  have : ∀ t : List (String × Account), (∀ q ∈ t, 0 ≤ q.2.balance) →
      ∀ q ∈ setBalance t id b, 0 ≤ q.2.balance := by
    intro t
    induction t with
    | nil => intro _ q hq; simp [setBalance] at hq
    | cons r u ih =>
      intro ht q hq
      obtain ⟨k, a0⟩ := r
      rw [setBalance] at hq
      rcases List.mem_cons.mp hq with hq | hq
      · by_cases hk : k = id
        · rw [if_pos hk] at hq; subst hq; exact hb
        · rw [if_neg hk] at hq; subst hq
          exact ht _ (List.mem_cons_self _ _)
      · exact ih (fun q hq => ht q (List.mem_cons_of_mem _ hq)) q hq
  exact this s.accounts hs p hp

/-- Appending a ledger entry preserves `NonNeg`. -/
theorem nonNeg_appendTx (s : Bank) (tx : Transaction) (hs : NonNeg s) :
    NonNeg (s.appendTx tx) := hs

/-- A balance found in a `NonNeg` store is non-negative. -/
theorem nonNeg_findAcc (s : Bank) (id : String) (a : Account)
    (hs : NonNeg s) (h : findAcc s.accounts id = some a) : 0 ≤ a.balance :=
  hs (id, a) (findAcc_mem s.accounts id a h)

end BankApi

namespace BankApi

/-- Any run of the deposit endpoint with a non-negative amount keeps
every balance non-negative, whichever store write fails. -/
theorem depositF_nonneg (failAt : Option Nat) (s : Bank) (aid : String)
    (amt : ℚ) (note : Option String) (hs : NonNeg s) (hamt : 0 ≤ amt) :
    NonNeg (depositF failAt s aid amt note).1 := by
  unfold depositF
  cases hfind : findAcc s.accounts aid with
  | none => exact hs
  | some acc =>
    have hb : 0 ≤ acc.balance + amt :=
      add_nonneg (nonNeg_findAcc s aid acc hs hfind) hamt
    have hset : NonNeg (s.setBal aid (acc.balance + amt)) :=
      nonNeg_setBal s aid _ hb hs
    by_cases h0 : failAt = some 0
    · simp only [if_pos h0]; exact hs
    · simp only [if_neg h0, mkTransaction]
      by_cases hpos : 0 < amt
      · simp only [if_pos hpos]
        by_cases h1 : failAt = some 1
        · simp only [if_pos h1]; exact hset
        · simp only [if_neg h1]; exact nonNeg_appendTx _ _ hset
      · simp only [if_neg hpos]; exact hset

/-- Any run of the withdraw commit phase keeps every balance
non-negative: the balance write is guarded by the insufficient-funds
check, so it only ever writes `current - amount` with
`amount <= current`. -/
theorem withdrawCommitF_nonneg (failAt : Option Nat) (s : Bank)
    (acc : Account) (aid : String) (amt : ℚ) (note : Option String)
    (hs : NonNeg s) :
    NonNeg (withdrawCommitF failAt s acc aid amt note).1 := by
  unfold withdrawCommitF
  by_cases hgt : amt > acc.balance
  · simp only [if_pos hgt]; exact hs
  · have hset : NonNeg (s.setBal aid (acc.balance - amt)) :=
      nonNeg_setBal s aid _ (sub_nonneg.mpr (not_lt.mp hgt)) hs
    simp only [if_neg hgt, mkTransaction]
    by_cases h0 : failAt = some 0
    · simp only [if_pos h0]; exact hs
    · simp only [if_neg h0]
      by_cases hpos : 0 < amt
      · simp only [if_pos hpos]
        by_cases h1 : failAt = some 1
        · simp only [if_pos h1]; exact hset
        · simp only [if_neg h1]; exact nonNeg_appendTx _ _ hset
      · simp only [if_neg hpos]; exact hset

/-- Any run of the withdraw endpoint keeps every balance non-negative. -/
theorem withdrawF_nonneg (failAt : Option Nat) (s : Bank) (aid : String)
    (amt : ℚ) (note : Option String) (hs : NonNeg s) :
    NonNeg (withdrawF failAt s aid amt note).1 := by
  unfold withdrawF
  cases hfind : findAcc s.accounts aid with
  | none => exact hs
  | some acc => exact withdrawCommitF_nonneg failAt s acc aid amt note hs

/-- Any run of the transfer endpoint with a non-negative amount keeps
every balance non-negative, whichever store write fails: the debit is
guarded by the insufficient-funds check, and the credit writes the
destination snapshot balance plus the amount. -/
theorem transferF_nonneg (failAt : Option Nat) (s : Bank)
    (from_id to_id : String) (amt : ℚ) (note : Option String)
    (hs : NonNeg s) (hamt : 0 ≤ amt) :
    NonNeg (transferF failAt s from_id to_id amt note).1 := by
  unfold transferF
  cases hfrom : findAcc s.accounts from_id with
  | none => exact hs
  | some from_acc =>
    cases hto : findAcc s.accounts to_id with
    | none => exact hs
    | some to_acc =>
      by_cases hcur : from_acc.currency ≠ to_acc.currency
      · simp only [if_pos hcur]; exact hs
      · simp only [if_neg hcur]
        by_cases hgt : amt > from_acc.balance
        · simp only [if_pos hgt]; exact hs
        · simp only [if_neg hgt]
          have h1 : NonNeg (s.setBal from_id (from_acc.balance - amt)) :=
            nonNeg_setBal s from_id _ (sub_nonneg.mpr (not_lt.mp hgt)) hs
          have h2 : NonNeg ((s.setBal from_id (from_acc.balance - amt)).setBal
              to_id (to_acc.balance + amt)) :=
            nonNeg_setBal _ to_id _
              (add_nonneg (nonNeg_findAcc s to_id to_acc hs hto) hamt) h1
          by_cases hf0 : failAt = some 0
          · simp only [if_pos hf0]; exact hs
          · simp only [if_neg hf0]
            by_cases hf1 : failAt = some 1
            · simp only [if_pos hf1]; exact h1
            · simp only [if_neg hf1, mkTransaction]
              by_cases hpos : 0 < amt
              · simp only [if_pos hpos]
                by_cases hf2 : failAt = some 2
                · simp only [if_pos hf2]; exact h2
                · simp only [if_neg hf2]
                  by_cases hf3 : failAt = some 3
                  · simp only [if_pos hf3]
                    exact nonNeg_appendTx _ _ h2
                  · simp only [if_neg hf3]
                    exact nonNeg_appendTx _ _ (nonNeg_appendTx _ _ h2)
              · simp only [if_pos hpos, if_neg hpos]; exact h2

end BankApi

namespace BankApi

/-- The balance the store records for an id (0 when the id is absent). -/
def balOf (s : Bank) (aid : String) : ℚ :=
  match findAcc s.accounts aid with
  | some a => a.balance
  | none => 0

/-- One ledger-core call with its arguments. -/
inductive Op where
  | dep : String → ℚ → Option String → Op
  | wd : String → ℚ → Option String → Op
  | tr : String → String → ℚ → Option String → Op

/-- The preconditions spec section 4.1 states for each operation:
positive amount, accounts exist, sufficient source balance, matching
currencies for a transfer. -/
def specPre (s : Bank) : Op → Prop
  | Op.dep aid amt _ => 0 < amt ∧ findAcc s.accounts aid ≠ none
  | Op.wd aid amt _ =>
    0 < amt ∧ (match findAcc s.accounts aid with
      | some a => amt ≤ a.balance
      | none => False)
  | Op.tr fid tid amt _ =>
    0 < amt ∧ (match findAcc s.accounts fid, findAcc s.accounts tid with
      | some a, some b => a.currency = b.currency ∧ amt ≤ a.balance
      | _, _ => False)

/-- The store state a fault-free call leaves behind. -/
def applyOp (s : Bank) : Op → Bank
  | Op.dep aid amt note => (deposit s aid amt note).1
  | Op.wd aid amt note => (withdraw s aid amt note).1
  | Op.tr fid tid amt note => (transfer s fid tid amt note).1

/-- Every store state visible during one call, the intermediate ones
included: the state in which the k-th store write is about to run is
exactly the state the call returns when that write faults, so the
fault-instrumented runs enumerate the intermediate states.  For a
transfer the element at index 1 is the state after the debit and before
the credit. -/
def opStates (s : Bank) : Op → List Bank
  | Op.dep aid amt note =>
      [(depositF (some 0) s aid amt note).1,
       (depositF (some 1) s aid amt note).1,
       (deposit s aid amt note).1]
  | Op.wd aid amt note =>
      [(withdrawF (some 0) s aid amt note).1,
       (withdrawF (some 1) s aid amt note).1,
       (withdraw s aid amt note).1]
  | Op.tr fid tid amt note =>
      [(transferF (some 0) s fid tid amt note).1,
       (transferF (some 1) s fid tid amt note).1,
       (transferF (some 2) s fid tid amt note).1,
       (transferF (some 3) s fid tid amt note).1,
       (transfer s fid tid amt note).1]

/-- Every call of the trace satisfies the spec preconditions in the
state in which it runs. -/
def ValidTrace : Bank → List Op → Prop
  | _, [] => True
  | s, op :: rest => specPre s op ∧ ValidTrace (applyOp s op) rest

/-- Every store state visible while a trace runs, intermediate states of
each call included. -/
def traceStates : Bank → List Op → List Bank
  | s, [] => [s]
  | s, op :: rest => s :: (opStates s op ++ traceStates (applyOp s op) rest)

/-- Every state a precondition-respecting call exposes keeps all
balances non-negative. -/
theorem opStates_nonneg (s : Bank) (op : Op) (hs : NonNeg s)
    (hpre : specPre s op) : ∀ s' ∈ opStates s op, NonNeg s' := by
  intro s' h
  cases op with
  | dep aid amt note =>
    have hamt : 0 ≤ amt := le_of_lt hpre.1
    simp only [opStates, List.mem_cons, List.not_mem_nil, or_false] at h
    rcases h with h | h | h <;> subst h
    · exact depositF_nonneg (some 0) s aid amt note hs hamt
    · exact depositF_nonneg (some 1) s aid amt note hs hamt
    · exact depositF_nonneg none s aid amt note hs hamt
  | wd aid amt note =>
    simp only [opStates, List.mem_cons, List.not_mem_nil, or_false] at h
    rcases h with h | h | h <;> subst h
    · exact withdrawF_nonneg (some 0) s aid amt note hs
    · exact withdrawF_nonneg (some 1) s aid amt note hs
    · exact withdrawF_nonneg none s aid amt note hs
  | tr fid tid amt note =>
    have hamt : 0 ≤ amt := le_of_lt hpre.1
    simp only [opStates, List.mem_cons, List.not_mem_nil, or_false] at h
    rcases h with h | h | h | h | h <;> subst h
    · exact transferF_nonneg (some 0) s fid tid amt note hs hamt
    · exact transferF_nonneg (some 1) s fid tid amt note hs hamt
    · exact transferF_nonneg (some 2) s fid tid amt note hs hamt
    · exact transferF_nonneg (some 3) s fid tid amt note hs hamt
    · exact transferF_nonneg none s fid tid amt note hs hamt

/-- A precondition-respecting call leaves all balances non-negative. -/
theorem applyOp_nonneg (s : Bank) (op : Op) (hs : NonNeg s)
    (hpre : specPre s op) : NonNeg (applyOp s op) := by
  cases op with
  | dep aid amt note =>
    exact depositF_nonneg none s aid amt note hs (le_of_lt hpre.1)
  | wd aid amt note => exact withdrawF_nonneg none s aid amt note hs
  | tr fid tid amt note =>
    exact transferF_nonneg none s fid tid amt note hs (le_of_lt hpre.1)

end BankApi

namespace BankApi

/-- Fault-free deposit with a positive amount on an existing account:
the full store result. -/
theorem deposit_run (s : Bank) (aid : String) (acc : Account) (amt : ℚ)
    (note : Option String) (hfind : findAcc s.accounts aid = some acc)
    (hpos : 0 < amt) :
    deposit s aid amt note =
      ((s.setBal aid (acc.balance + amt)).appendTx
          ⟨aid, TxType.deposit, amt, acc.currency, note, none, none⟩,
        Except.ok (acc.balance + amt)) := by
  unfold deposit depositF
  rw [hfind]
  simp only [mkTransaction, if_pos hpos]
  simp

/-- Fault-free withdraw when the amount exceeds the snapshot balance:
rejected with HTTP 400, store untouched. -/
theorem withdraw_run_insufficient (s : Bank) (aid : String) (acc : Account)
    (amt : ℚ) (note : Option String)
    (hfind : findAcc s.accounts aid = some acc) (hgt : amt > acc.balance) :
    withdraw s aid amt note = (s, Except.error ⟨400, "Insufficient funds"⟩) := by
  unfold withdraw withdrawF withdrawCommitF
  rw [hfind]
  simp only [if_pos hgt]

/-- Fault-free withdraw with a positive amount within the balance:
the full store result. -/
theorem withdraw_run_success (s : Bank) (aid : String) (acc : Account)
    (amt : ℚ) (note : Option String)
    (hfind : findAcc s.accounts aid = some acc) (hpos : 0 < amt)
    (hle : amt ≤ acc.balance) :
    withdraw s aid amt note =
      ((s.setBal aid (acc.balance - amt)).appendTx
          ⟨aid, TxType.withdraw, amt, acc.currency, note, none, none⟩,
        Except.ok (acc.balance - amt)) := by
  unfold withdraw withdrawF withdrawCommitF
  rw [hfind]
  simp only [if_neg (not_lt.mpr hle), mkTransaction, if_pos hpos]
  simp

/-- Fault-free transfer when all checks pass: the full store result.
The credit writes the destination snapshot balance plus the amount,
where the snapshot was read before the debit. -/
theorem transfer_run (s : Bank) (fid tid : String) (amt : ℚ)
    (note : Option String) (from_acc to_acc : Account)
    (hfrom : findAcc s.accounts fid = some from_acc)
    (hto : findAcc s.accounts tid = some to_acc)
    (hcur : from_acc.currency = to_acc.currency) (hpos : 0 < amt)
    (hle : amt ≤ from_acc.balance) :
    transfer s fid tid amt note =
      ((((s.setBal fid (from_acc.balance - amt)).setBal tid
            (to_acc.balance + amt)).appendTx
          ⟨fid, TxType.transfer, amt, from_acc.currency, note, some tid, none⟩).appendTx
          ⟨tid, TxType.deposit, amt, to_acc.currency,
            some ("Transfer from " ++ fid), none, none⟩,
        Except.ok ()) := by
  unfold transfer transferF
  rw [hfrom, hto]
  simp only [if_neg (not_ne_iff.mpr hcur), if_neg (not_lt.mpr hle),
    mkTransaction, if_pos hpos]
  simp

/-- Fault-free transfer between accounts of different currencies:
rejected with HTTP 400, store untouched. -/
theorem transfer_run_mismatch (s : Bank) (fid tid : String) (amt : ℚ)
    (note : Option String) (from_acc to_acc : Account)
    (hfrom : findAcc s.accounts fid = some from_acc)
    (hto : findAcc s.accounts tid = some to_acc)
    (hcur : from_acc.currency ≠ to_acc.currency) :
    transfer s fid tid amt note =
      (s, Except.error ⟨400, "Currency mismatch"⟩) := by
  unfold transfer transferF
  rw [hfrom, hto]
  simp only [ne_eq, hcur, not_false_eq_true, if_true, if_pos]

/-- Appending a ledger entry leaves the account collection unchanged. -/
theorem appendTx_accounts (s : Bank) (tx : Transaction) :
    (s.appendTx tx).accounts = s.accounts := rfl

/-- Updating a balance leaves the ledger unchanged. -/
theorem setBal_transactions (s : Bank) (aid : String) (b : ℚ) :
    (s.setBal aid b).transactions = s.transactions := rfl

end BankApi

namespace BankApi

/-- Concrete USD checking account with balance 100, used as source. -/
def accA : Account := ⟨"cust1", AccountType.checking, 100, Currency.USD, none⟩

/-- Concrete USD savings account with balance 50, used as destination. -/
def accB : Account := ⟨"cust2", AccountType.savings, 50, Currency.USD, none⟩

/-- Concrete EUR account with balance 50, for the currency-mismatch case. -/
def accE : Account := ⟨"cust3", AccountType.checking, 50, Currency.EUR, none⟩

/-- Concrete USD account with balance 0, for the round-trip case. -/
def accZ : Account := ⟨"cust4", AccountType.checking, 0, Currency.USD, none⟩

/-- Store with accounts A (balance 100) and B (balance 50), both USD. -/
def bankAB : Bank := ⟨[("A", accA), ("B", accB)], []⟩

/-- Store with account A (USD) and account E (EUR). -/
def bankAE : Bank := ⟨[("A", accA), ("E", accE)], []⟩

/-- Store with the single zero-balance account Z and an empty ledger. -/
def bankZ : Bank := ⟨[("Z", accZ)], []⟩

/-- The balance the store records for an id present in the store. -/
theorem balOf_some (s : Bank) (aid : String) (a : Account)
    (h : findAcc s.accounts aid = some a) : balOf s aid = a.balance := by
  unfold balOf
  rw [h]

/-- C1: when the credit write of a transfer is rejected after the debit
write succeeded, the call surfaces HTTP 500 with the debit still
applied, the destination not credited, and no compensating re-credit or
ledger entry: the operation terminates with the debit applied and no
corresponding credit, which the specification forbids. -/
theorem transfer_credit_fault_leaves_debit_unmatched :
    (transferF (some 1) bankAB "A" "B" 30 none).2 =
        Except.error ⟨500, storeFaultMsg⟩ ∧
      balOf (transferF (some 1) bankAB "A" "B" 30 none).1 "A" = 70 ∧
      balOf (transferF (some 1) bankAB "A" "B" 30 none).1 "B" = 50 ∧
      (transferF (some 1) bankAB "A" "B" 30 none).1.transactions = [] := by
  refine ⟨?_, ?_, ?_, ?_⟩ <;>
      simp +decide [transferF, bankAB, accA, accB, findAcc, setBalance,
        Bank.setBal, balOf, mkTransaction] <;>
    norm_num

/-- C2: a transfer between two distinct existing accounts of equal
currency, with a positive amount within the source balance, succeeds,
debits the source by the amount, credits the destination by the amount,
conserves the sum of the two balances, and appends exactly two ledger
entries: a transfer entry on the source carrying the destination id and
a deposit entry on the destination whose note references the source. -/
theorem transfer_happy_path (s : Bank) (fid tid : String) (amt : ℚ)
    (note : Option String) (from_acc to_acc : Account)
    (hfrom : findAcc s.accounts fid = some from_acc)
    (hto : findAcc s.accounts tid = some to_acc) (hne : fid ≠ tid)
    (hcur : from_acc.currency = to_acc.currency) (hpos : 0 < amt)
    (hle : amt ≤ from_acc.balance) :
    (transfer s fid tid amt note).2 = Except.ok () ∧
      balOf (transfer s fid tid amt note).1 fid = from_acc.balance - amt ∧
      balOf (transfer s fid tid amt note).1 tid = to_acc.balance + amt ∧
      balOf (transfer s fid tid amt note).1 fid +
          balOf (transfer s fid tid amt note).1 tid =
        balOf s fid + balOf s tid ∧
      (transfer s fid tid amt note).1.transactions =
        s.transactions ++
          [⟨fid, TxType.transfer, amt, from_acc.currency, note, some tid, none⟩,
           ⟨tid, TxType.deposit, amt, to_acc.currency,
             some ("Transfer from " ++ fid), none, none⟩] := by
  rw [transfer_run s fid tid amt note from_acc to_acc hfrom hto hcur hpos hle]
  have hA : findAcc (setBalance (setBalance s.accounts fid
      (from_acc.balance - amt)) tid (to_acc.balance + amt)) fid =
      some { from_acc with balance := from_acc.balance - amt } := by
    rw [findAcc_setBalance_ne _ fid tid _ hne,
      findAcc_setBalance_eq _ fid from_acc _ hfrom]
  have hB : findAcc (setBalance (setBalance s.accounts fid
      (from_acc.balance - amt)) tid (to_acc.balance + amt)) tid =
      some { to_acc with balance := to_acc.balance + amt } := by
    rw [findAcc_setBalance_eq _ tid to_acc _
      ((findAcc_setBalance_ne s.accounts tid fid _ hne.symm).trans hto)]
  refine ⟨rfl, ?_, ?_, ?_, ?_⟩
  · simp only [balOf, Bank.appendTx, Bank.setBal]
    rw [hA]
  · simp only [balOf, Bank.appendTx, Bank.setBal]
    rw [hB]
  · simp only [balOf, Bank.appendTx, Bank.setBal]
    rw [hA, hB, hfrom, hto]
    ring
  · simp [Bank.appendTx, Bank.setBal]

/-- Witness for C2 at a concrete input: transferring 30 from A (balance
100) to B (balance 50) in `bankAB` succeeds with final balances 70 and
80 and the two expected ledger entries. -/
theorem transfer_happy_path_witness :
    (transfer bankAB "A" "B" 30 none).2 = Except.ok () ∧
      balOf (transfer bankAB "A" "B" 30 none).1 "A" = 70 ∧
      balOf (transfer bankAB "A" "B" 30 none).1 "B" = 80 ∧
      (transfer bankAB "A" "B" 30 none).1.transactions =
        [⟨"A", TxType.transfer, 30, Currency.USD, none, some "B", none⟩,
         ⟨"B", TxType.deposit, 30, Currency.USD, some "Transfer from A",
           none, none⟩] := by
  obtain ⟨h1, h2, h3, _, h5⟩ :=
    transfer_happy_path bankAB "A" "B" 30 none accA accB (by decide) (by decide)
      (by decide) rfl (by norm_num) (by norm_num [accA])
  refine ⟨h1, ?_, ?_, ?_⟩
  · rw [h2]; norm_num [accA]
  · rw [h3]; norm_num [accB]
  · rw [h5]; rfl

end BankApi

namespace BankApi

/-- C3: starting from a store in which every balance is non-negative,
after any sequence of deposit, withdraw and transfer calls that each
satisfy the spec preconditions in the state where they run, every
balance is non-negative in every store state along the way — the final
and intermediate states of every call included, in particular the state
between the debit and the credit of a transfer. -/
theorem balances_nonneg_along_valid_traces (s0 : Bank) (ops : List Op)
    (h0 : NonNeg s0) (hv : ValidTrace s0 ops) :
    ∀ s ∈ traceStates s0 ops, NonNeg s := by
  induction ops generalizing s0 with
  | nil =>
    intro s h
    rw [traceStates] at h
    rcases List.mem_singleton.mp h with rfl
    exact h0
  | cons op rest ih =>
    intro s h
    rw [traceStates] at h
    rcases List.mem_cons.mp h with rfl | h
    · exact h0
    · rcases List.mem_append.mp h with h | h
      · exact opStates_nonneg s0 op h0 hv.1 s h
      · exact ih (applyOp s0 op) (applyOp_nonneg s0 op h0 hv.1) hv.2 s h

/-- Witness for C3 at a concrete input: along the one-transfer trace
moving 30 from A to B in `bankAB`, the intermediate state after the
debit and before the credit still has all balances non-negative. -/
theorem balances_nonneg_along_valid_traces_witness :
    NonNeg (transferF (some 1) bankAB "A" "B" 30 none).1 := by
  have happly :=
    balances_nonneg_along_valid_traces bankAB [Op.tr "A" "B" 30 none]
      (by intro p hp; fin_cases hp <;> norm_num [accA, accB])
      (by
        refine ⟨⟨by norm_num, ?_⟩, trivial⟩
        show (match findAcc bankAB.accounts "A", findAcc bankAB.accounts "B" with
          | some a, some b => a.currency = b.currency ∧ (30 : ℚ) ≤ a.balance
          | _, _ => False)
        have hA : findAcc bankAB.accounts "A" = some accA := by decide
        have hB : findAcc bankAB.accounts "B" = some accB := by decide
        rw [hA, hB]
        exact ⟨rfl, by norm_num [accA]⟩)
  refine happly _ ?_
  rw [traceStates, opStates]
  refine List.mem_cons_of_mem _ (List.mem_append_left _ ?_)
  exact List.mem_cons_of_mem _ (List.mem_cons_self _ _)

/-- C4: withdrawing from an existing account with balance b: when the
amount exceeds b the call fails with the insufficient-funds error and
the store is untouched; when the amount is positive and within b the
call succeeds, returns the new balance b minus the amount, records that
balance, and appends exactly one withdraw-typed ledger entry. -/
theorem withdraw_spec_cases (s : Bank) (aid : String) (acc : Account)
    (amt : ℚ) (note : Option String)
    (hfind : findAcc s.accounts aid = some acc) :
    (amt > acc.balance →
      withdraw s aid amt note = (s, Except.error ⟨400, "Insufficient funds"⟩)) ∧
      (0 < amt → amt ≤ acc.balance →
        (withdraw s aid amt note).2 = Except.ok (acc.balance - amt) ∧
          balOf (withdraw s aid amt note).1 aid = acc.balance - amt ∧
          (withdraw s aid amt note).1.transactions =
            s.transactions ++
              [⟨aid, TxType.withdraw, amt, acc.currency, note, none, none⟩]) := by
  constructor
  · intro hgt
    exact withdraw_run_insufficient s aid acc amt note hfind hgt
  · intro hpos hle
    rw [withdraw_run_success s aid acc amt note hfind hpos hle]
    refine ⟨rfl, ?_, rfl⟩
    simp only [balOf, Bank.appendTx, Bank.setBal]
    rw [findAcc_setBalance_eq s.accounts aid acc _ hfind]

/-- Witness for C4 at concrete inputs: in `bankAB`, withdrawing 60 from
B (balance 50) fails with the insufficient-funds error and leaves the
store untouched, while withdrawing 60 from A (balance 100) succeeds and
returns 40. -/
theorem withdraw_spec_cases_witness :
    withdraw bankAB "B" 60 none =
        (bankAB, Except.error ⟨400, "Insufficient funds"⟩) ∧
      (withdraw bankAB "A" 60 none).2 = Except.ok 40 := by
  constructor
  · exact (withdraw_spec_cases bankAB "B" accB 60 none (by decide)).1
      (by norm_num [accB])
  · have h := (withdraw_spec_cases bankAB "A" accA 60 none (by decide)).2
      (by norm_num) (by norm_num [accA])
    rw [h.1]
    norm_num [accA]

/-- C5: the claim fails on the code: a deposit with a non-positive
amount does reach a failure, but only from the pydantic validation of
the ledger entry, after the balance write already ran: the call
surfaces HTTP 500 (not the InvalidArgument kind, which the HTTP layer
maps to 400) and the balance has been changed by the non-positive
amount.  On `bankAB`, depositing -5 into A (balance 100) leaves A at
95. -/
theorem deposit_nonpositive_mutates_then_500 :
    (deposit bankAB "A" (-5) none).2 = Except.error ⟨500, validationMsg⟩ ∧
      balOf (deposit bankAB "A" (-5) none).1 "A" = 95 := by
  constructor <;>
      simp +decide [deposit, depositF, bankAB, accA, accB, findAcc, setBalance,
        Bank.setBal, balOf, mkTransaction] <;>
    norm_num

end BankApi

namespace BankApi

/-- C6: a transfer between two existing accounts whose currency codes
differ fails with the currency-mismatch error, leaves both balances
unchanged, and creates no ledger entry (the whole store is untouched). -/
theorem transfer_currency_mismatch_no_effect (s : Bank) (fid tid : String)
    (amt : ℚ) (note : Option String) (from_acc to_acc : Account)
    (hfrom : findAcc s.accounts fid = some from_acc)
    (hto : findAcc s.accounts tid = some to_acc)
    (hcur : from_acc.currency ≠ to_acc.currency) :
    transfer s fid tid amt note =
        (s, Except.error ⟨400, "Currency mismatch"⟩) ∧
      balOf (transfer s fid tid amt note).1 fid = balOf s fid ∧
      balOf (transfer s fid tid amt note).1 tid = balOf s tid ∧
      (transfer s fid tid amt note).1.transactions = s.transactions := by
  have h := transfer_run_mismatch s fid tid amt note from_acc to_acc hfrom hto hcur
  rw [h]
  exact ⟨rfl, rfl, rfl, rfl⟩

/-- Witness for C6 at a concrete input: transferring 30 from the USD
account A to the EUR account E in `bankAE` fails with the
currency-mismatch error and leaves the store untouched. -/
theorem transfer_currency_mismatch_no_effect_witness :
    transfer bankAE "A" "E" 30 none =
      (bankAE, Except.error ⟨400, "Currency mismatch"⟩) :=
  (transfer_currency_mismatch_no_effect bankAE "A" "E" 30 none accA accE
    (by decide) (by decide) (by decide)).1

/-- C7: a transfer whose source and destination are the same existing
account, with a positive amount within the balance b, succeeds and
leaves the balance at b plus the amount: the credit is computed from
the snapshot read before the debit and overwrites the debited balance,
so a self-transfer creates money. -/
theorem self_transfer_creates_money (s : Bank) (aid : String) (amt : ℚ)
    (note : Option String) (acc : Account)
    (hfind : findAcc s.accounts aid = some acc) (hpos : 0 < amt)
    (hle : amt ≤ acc.balance) :
    (transfer s aid aid amt note).2 = Except.ok () ∧
      balOf (transfer s aid aid amt note).1 aid = acc.balance + amt := by
  rw [transfer_run s aid aid amt note acc acc hfind hfind rfl hpos hle]
  refine ⟨rfl, ?_⟩
  simp only [balOf, Bank.appendTx, Bank.setBal]
  rw [findAcc_setBalance_eq _ aid { acc with balance := acc.balance - amt } _
    (findAcc_setBalance_eq s.accounts aid acc _ hfind)]

/-- Witness for C7 at a concrete input: transferring 30 from A to A in
`bankAB` (balance 100) succeeds and leaves A at 130. -/
theorem self_transfer_creates_money_witness :
    (transfer bankAB "A" "A" 30 none).2 = Except.ok () ∧
      balOf (transfer bankAB "A" "A" 30 none).1 "A" = 130 := by
  obtain ⟨h1, h2⟩ := self_transfer_creates_money bankAB "A" 30 none accA
    (by decide) (by norm_num) (by norm_num [accA])
  refine ⟨h1, ?_⟩
  rw [h2]
  norm_num [accA]

/-- C8: a deposit of a positive amount into an existing account with
balance b succeeds, returns b plus the amount, records that balance,
and appends exactly one deposit-typed ledger entry carrying the
current currency of the account. -/
theorem deposit_happy_path (s : Bank) (aid : String) (acc : Account)
    (amt : ℚ) (note : Option String)
    (hfind : findAcc s.accounts aid = some acc) (hpos : 0 < amt) :
    (deposit s aid amt note).2 = Except.ok (acc.balance + amt) ∧
      balOf (deposit s aid amt note).1 aid = acc.balance + amt ∧
      (deposit s aid amt note).1.transactions =
        s.transactions ++
          [⟨aid, TxType.deposit, amt, acc.currency, note, none, none⟩] := by
  rw [deposit_run s aid acc amt note hfind hpos]
  refine ⟨rfl, ?_, rfl⟩
  simp only [balOf, Bank.appendTx, Bank.setBal]
  rw [findAcc_setBalance_eq s.accounts aid acc _ hfind]

/-- Witness for C8 at a concrete input: depositing 25 into A in
`bankAB` (balance 100) succeeds with new balance 125 and appends the
one expected deposit entry. -/
theorem deposit_happy_path_witness :
    (deposit bankAB "A" 25 none).2 = Except.ok 125 ∧
      balOf (deposit bankAB "A" 25 none).1 "A" = 125 := by
  obtain ⟨h1, h2, _⟩ := deposit_happy_path bankAB "A" accA 25 none
    (by decide) (by norm_num)
  constructor
  · rw [h1]; norm_num [accA]
  · rw [h2]; norm_num [accA]

/-- C9: depositing a positive amount into an existing account with
balance 0 and an empty ledger, then withdrawing the same amount,
restores the balance to exactly 0 and leaves exactly two ledger
entries in total. -/
theorem deposit_then_withdraw_roundtrip (s : Bank) (aid : String)
    (acc : Account) (amt : ℚ) (n1 n2 : Option String)
    (hfind : findAcc s.accounts aid = some acc) (hzero : acc.balance = 0)
    (hledger : s.transactions = []) (hpos : 0 < amt) :
    balOf (withdraw (deposit s aid amt n1).1 aid amt n2).1 aid = 0 ∧
      (withdraw (deposit s aid amt n1).1 aid amt
          n2).1.transactions.length = 2 := by
  rw [deposit_run s aid acc amt n1 hfind hpos]
  have hfind1 : findAcc (((s.setBal aid (acc.balance + amt)).appendTx
      ⟨aid, TxType.deposit, amt, acc.currency, n1, none, none⟩).accounts) aid =
      some { acc with balance := acc.balance + amt } := by
    show findAcc (setBalance s.accounts aid (acc.balance + amt)) aid = _
    exact findAcc_setBalance_eq s.accounts aid acc _ hfind
  rw [withdraw_run_success _ aid { acc with balance := acc.balance + amt }
    amt n2 hfind1 hpos (by simp [hzero])]
  constructor
  · simp only [balOf, Bank.appendTx, Bank.setBal]
    rw [findAcc_setBalance_eq (setBalance s.accounts aid (acc.balance + amt))
      aid { acc with balance := acc.balance + amt } _
      (findAcc_setBalance_eq s.accounts aid acc _ hfind)]
    simp [hzero]
  · simp [Bank.appendTx, Bank.setBal, hledger]

/-- Witness for C9 at a concrete input: on the zero-balance account Z
of `bankZ` with an empty ledger, depositing 7 then withdrawing 7 ends
with balance 0 and exactly two ledger entries. -/
theorem deposit_then_withdraw_roundtrip_witness :
    balOf (withdraw (deposit bankZ "Z" 7 none).1 "Z" 7 none).1 "Z" = 0 ∧
      (withdraw (deposit bankZ "Z" 7 none).1 "Z" 7
          none).1.transactions.length = 2 :=
  deposit_then_withdraw_roundtrip bankZ "Z" accZ 7 none none (by decide) rfl
    rfl (by norm_num)

/-- C10: the claim fails on the code: two withdrawals of 60 that both
read the account snapshot of A (balance 100) before either write runs
— an interleaving the store permits, since the balance check and the
unconditional `$set` write are separate store calls with no
compare-and-swap or transaction — BOTH succeed with result 40, and the
final balance is 40 after two successful withdrawals of 60 from 100: a
lost update, not the exactly-one-succeeds outcome the claim requires.
The first conjunct records that `accA` is exactly the snapshot both
reads return in `bankAB`. -/
theorem concurrent_withdraw_lost_update :
    findAcc bankAB.accounts "A" = some accA ∧
      (withdrawCommit bankAB accA "A" 60 none).2 = Except.ok 40 ∧
      (withdrawCommit (withdrawCommit bankAB accA "A" 60 none).1 accA "A" 60
          none).2 = Except.ok 40 ∧
      balOf (withdrawCommit (withdrawCommit bankAB accA "A" 60 none).1 accA "A"
          60 none).1 "A" = 40 := by
  refine ⟨by decide, ?_, ?_, ?_⟩ <;>
      simp +decide [withdrawCommit, withdrawCommitF, bankAB, accA, accB,
        findAcc, setBalance, Bank.setBal, Bank.appendTx, balOf,
        mkTransaction] <;>
    norm_num

end BankApi
